import Mathlib

/-!
Verification of the Hearts game server (backend/app): card model, trick
evaluation, play validation, passing, scoring and matchmaking, embedded as
executable Lean definitions translated from the Python source, together with
theorems settling the specification claims.
-/

namespace Heartless

/-- Suits as in `Card.SUITS` of game_logic/cards.py. -/
inductive Suit
  | Hearts
  | Diamonds
  | Clubs
  | Spades
deriving DecidableEq, Repr

/-- Ranks as in `Card.RANKS` of game_logic/cards.py. -/
inductive Rank
  | R2 | R3 | R4 | R5 | R6 | R7 | R8 | R9 | R10 | RJ | RQ | RK | RA
deriving DecidableEq, Repr

/-- Rank value, the `Card.RANKS` dictionary of cards.py. -/
def Rank.value : Rank → Nat
  | .R2 => 2
  | .R3 => 3
  | .R4 => 4
  | .R5 => 5
  | .R6 => 6
  | .R7 => 7
  | .R8 => 8
  | .R9 => 9
  | .R10 => 10
  | .RJ => 11
  | .RQ => 12
  | .RK => 13
  | .RA => 14

/-- Rank glyph as used by `Card.to_str` (the rank part of the wire string). -/
def Rank.str : Rank → String
  | .R2 => "2"
  | .R3 => "3"
  | .R4 => "4"
  | .R5 => "5"
  | .R6 => "6"
  | .R7 => "7"
  | .R8 => "8"
  | .R9 => "9"
  | .R10 => "10"
  | .RJ => "J"
  | .RQ => "Q"
  | .RK => "K"
  | .RA => "A"

/-- Suit glyph, the values of `Card.SUITS` in cards.py. -/
def Suit.glyph : Suit → String
  | .Hearts => "♥"
  | .Diamonds => "♦"
  | .Clubs => "♣"
  | .Spades => "♠"

/-- Suit name string, the keys of `Card.SUITS` in cards.py (Python stores the
suit as this string, e.g. in the f-string of the follow-suit error). -/
def Suit.name : Suit → String
  | .Hearts => "Hearts"
  | .Diamonds => "Diamonds"
  | .Clubs => "Clubs"
  | .Spades => "Spades"

/-- A card: the `Card` class of cards.py. The constructor validates suit and
rank, so a constructed card always has one of the four suits and thirteen
ranks, which the inductive types enforce. -/
structure Card where
  suit : Suit
  rank : Rank
deriving DecidableEq, Repr

/-- Field `self.value = self.RANKS[rank]` of the Card constructor. -/
def Card.value (c : Card) : Nat := c.rank.value

/-- Field `self.points` of the Card constructor: hearts are worth 1, the queen
of spades 13, all other cards 0. -/
def Card.points (c : Card) : Nat :=
  if c.suit = Suit.Hearts then 1
  else if c.suit = Suit.Spades ∧ c.rank = Rank.RQ then 13
  else 0

/-- The `to_str` method: rank glyph concatenated with suit glyph. -/
def Card.toStr (c : Card) : String := c.rank.str ++ c.suit.glyph

/-- The 2 of clubs, written "2♣" in the source. -/
def twoClubs : Card := ⟨Suit.Clubs, Rank.R2⟩

/-- The queen of spades, written "Q♠" in the source. -/
def queenSpades : Card := ⟨Suit.Spades, Rank.RQ⟩

/-- Embedding of `get_trick_winner` (cards.py lines 88-97): start from the
first played card and replace it by any later card of the lead suit with a
strictly higher value; `none` models the ValueError raised on an empty trick. -/
def get_trick_winner (played_cards : List Card) (lead_suit : Suit) : Option Card :=
  match played_cards with
  | [] => none
  | highest_card :: rest =>
      some (rest.foldl
        (fun highest card =>
          if card.suit = lead_suit ∧ card.value > highest.value then card else highest)
        highest_card)

/-- The fold performed by the loop of `get_trick_winner`, named so that the
lemmas below can speak about it. -/
def trickFold (lead_suit : Suit) (acc : Card) (l : List Card) : Card :=
  l.foldl
    (fun highest card =>
      if card.suit = lead_suit ∧ card.value > highest.value then card else highest)
    acc

/-- One entry of `current_trick`: the dictionary
`{"player_id": ..., "card": ...}` appended by the play handler. -/
structure TrickEntry where
  player_id : Nat
  card : Card
deriving DecidableEq, Repr

/-- The per-table session state held in the store (the dictionary built in
`start_new_round` and mutated by the websocket handler of routers/game.py).
Card strings are represented by `Card` values (`to_str` is injective on valid
cards and `from_str` inverts it), user ids by naturals, and the absent or
`None` values by `Option`. -/
structure SessionState where
  round_number : Nat
  hands : List (Nat × List Card)
  turn_user_id : Option Nat
  trick_starter_id : Option Nat
  phase : String
  passed_cards : List (Nat × List Card)
  pass_direction : Option String
  current_trick : List TrickEntry
  lead_suit : Option Suit
  round_scores : List (Nat × Nat)
  hearts_broken : Bool
deriving DecidableEq, Repr

/-- A seated player: the `GamePlayer` model (user id, seat 1..4, running
total score). -/
structure GamePlayer where
  user_id : Nat
  seat_number : Nat
  total_score : Nat
deriving DecidableEq, Repr

/-- Lookup in a Python dict modelled as an insertion-ordered association
list. -/
def dictGet {α : Type} (m : List (Nat × α)) (k : Nat) : Option α :=
  (m.find? (fun p => decide (p.1 = k))).map (fun p => p.2)

/-- Assignment `m[k] = v` for a key already present: replaces the value in
place, preserving dict order. -/
def dictSet {α : Type} (m : List (Nat × α)) (k : Nat) (v : α) : List (Nat × α) :=
  m.map (fun p => if p.1 = k then (k, v) else p)

/-- The hand `state["hands"][str(player_id)]` (empty if the key is absent,
which cannot happen for a seated player). -/
def handOf (st : SessionState) (pid : Nat) : List Card :=
  (dictGet st.hands pid).getD []

/-- The follow-suit test of the validation chain (game.py line 362):
`lead_suit and played_card.suit != lead_suit and any(Card.from_str(c).suit ==
lead_suit for c in hand)`. A `None` lead suit is falsy, so the rule only
applies mid-trick. -/
def followSuitViolation (hand : List Card) (c : Card) : Option Suit → Bool
  | none => false
  | some ls => decide (c.suit ≠ ls) && hand.any (fun x => decide (x.suit = ls))

/-- The f-string `f"Must follow suit ({lead_suit})."`. -/
def followSuitMessage : Option Suit → String
  | none => "Must follow suit."
  | some ls => "Must follow suit (" ++ ls.name ++ ")."

/-- Server-side play validation, game.py lines 347-370: the if/elif chain
computing `is_valid` and `error_message`; `none` means the play is valid.
The chain order is preserved exactly. Here `lead_suit` carries its typed
value — the intended reading, in which the store coerces scalars back on
read; `validatePlayLoaded` below executes the same chain over the string
representation the store actually hands back at runtime. -/
def validatePlay (st : SessionState) (pid : Nat) (c : Card) : Option String :=
  let hand := handOf st pid
  let is_first_trick := hand.length = 13
  if st.turn_user_id ≠ some pid then some ("Not your turn.")
  else if c ∉ hand then some ("Card not in hand.")
  else if is_first_trick ∧ st.lead_suit = none ∧ c ≠ twoClubs ∧ twoClubs ∈ hand then
    some ("Must lead with 2 of Clubs.")
  else if followSuitViolation hand c st.lead_suit then
    some (followSuitMessage st.lead_suit)
  else if st.lead_suit = none ∧ c.suit = Suit.Hearts ∧ st.hearts_broken = false then
    some ("Hearts have not been broken.")
  else if is_first_trick ∧ st.lead_suit ≠ none ∧ c.points > 0
      ∧ hand.any (fun x => decide (x.points = 0)) then
    some ("Cannot play point cards on the first trick.")
  else none

/-- Serialization of `lead_suit` through the store: `set_game_state` (game.py
line 74) stores scalar values with `str(v)`, so a null lead suit becomes the
string "None" and a suit its name string. `get_game_state` (lines 55-66)
coerces `round_number`, `turn_user_id`, `trick_starter_id` and
`hearts_broken` back to their types but NOT `lead_suit`, and the websocket
loop reloads the state before every message (line 299), so this string is
exactly the value the validation chain sees for `lead_suit` at runtime. -/
def storedLeadSuit : Option Suit → String
  | none => "None"
  | some s => s.name

/-- The play validation chain of game.py lines 347-370 as it executes at
runtime, where `lead_suit` is the string the store hands back and Python
truthiness of a string is non-emptiness. Since `storedLeadSuit` never
returns the empty string, the branches guarded by `not lead_suit` (lines 359
and 365) can never fire, and the first-trick points branch (line 368) fires
on leads as well. -/
def validatePlayLoaded (st : SessionState) (pid : Nat) (c : Card) : Option String :=
  let hand := handOf st pid
  let is_first_trick := hand.length = 13
  let lead_suit := storedLeadSuit st.lead_suit
  if st.turn_user_id ≠ some pid then some ("Not your turn.")
  else if c ∉ hand then some ("Card not in hand.")
  else if is_first_trick ∧ lead_suit = "" ∧ c ≠ twoClubs ∧ twoClubs ∈ hand then
    some ("Must lead with 2 of Clubs.")
  else if lead_suit ≠ "" ∧ c.suit.name ≠ lead_suit
      ∧ hand.any (fun x => decide (x.suit.name = lead_suit)) then
    some ("Must follow suit (" ++ lead_suit ++ ").")
  else if lead_suit = "" ∧ c.suit = Suit.Hearts ∧ st.hearts_broken = false then
    some ("Hearts have not been broken.")
  else if is_first_trick ∧ lead_suit ≠ "" ∧ c.points > 0
      ∧ hand.any (fun x => decide (x.points = 0)) then
    some ("Cannot play point cards on the first trick.")
  else none

/-- Finding the next player, game.py lines 388-390: the seat of the current
player, then the player seated at `(current_seat % 4) + 1`. -/
def nextPlayerAfter (players : List GamePlayer) (pid : Nat) : Option Nat :=
  match players.find? (fun p => decide (p.user_id = pid)) with
  | none => none
  | some current =>
      let next_seat := current.seat_number % 4 + 1
      (players.find? (fun p => decide (p.seat_number = next_seat))).map (fun p => p.user_id)

/-- State update on a valid play, game.py lines 376-393: remove the card from
the hand (`list.remove` deletes the first occurrence, as `List.erase` does),
break hearts on a heart or the queen of spades, set the lead suit when the
trick was empty, append the trick entry, and rotate or clear the turn. -/
def applyPlay (players : List GamePlayer) (st : SessionState) (pid : Nat) (c : Card) :
    SessionState :=
  let st1 := { st with hands := dictSet st.hands pid ((handOf st pid).erase c) }
  let st2 := { st1 with
    hearts_broken := st1.hearts_broken || decide (c.suit = Suit.Hearts)
      || decide (c = queenSpades) }
  let st3 := if st2.current_trick = [] then { st2 with lead_suit := some c.suit } else st2
  let st4 := { st3 with current_trick := st3.current_trick ++ [TrickEntry.mk pid c] }
  if st4.current_trick.length < 4 then
    { st4 with turn_user_id := nextPlayerAfter players pid }
  else
    { st4 with turn_user_id := none }

/-- The `play_card` event handler, game.py lines 341-404: on a rule violation
the offender gets the error message back and the stored state is untouched
(the handler executes `continue` without calling `set_game_state`); on success
the updated state is stored. -/
def playCardHandler (players : List GamePlayer) (st : SessionState) (pid : Nat) (c : Card) :
    Option String × SessionState :=
  match validatePlay st pid c with
  | some msg => (some msg, st)
  | none => (none, applyPlay players st pid c)

/-- Suit of the first card of the trick, `Card.from_str(trick[0]["card"]).suit`
in `process_trick_end` (`none` models the IndexError on an empty trick). -/
def trickLeadSuit : List TrickEntry → Option Suit
  | [] => none
  | e :: _ => some e.card.suit

/-- State transition of `process_trick_end`, game.py lines 153-174: recompute
the lead suit from the first trick entry, find the winning card, credit the
trick points to the first entry holding that card, then clear the trick and
hand the turn to the winner. -/
def processTrickEndState (st : SessionState) : Option SessionState :=
  match trickLeadSuit st.current_trick with
  | none => none
  | some lead_suit =>
      let played_cards := st.current_trick.map (fun e => e.card)
      match get_trick_winner played_cards lead_suit with
      | none => none
      | some trick_winner_card =>
          match st.current_trick.find? (fun e => decide (e.card = trick_winner_card)) with
          | none => none
          | some w =>
              let points := (played_cards.map Card.points).sum
              some { st with
                round_scores := dictSet st.round_scores w.player_id
                  ((dictGet st.round_scores w.player_id).getD 0 + points),
                current_trick := [],
                lead_suit := none,
                turn_user_id := some w.player_id,
                trick_starter_id := some w.player_id }

/-- The starter search of `start_new_round` (game.py lines 121-125): the first
user, in hand-dictionary order, whose hand contains the 2 of clubs. -/
def findStarter (hands_data : List (Nat × List Card)) : Option Nat :=
  (hands_data.find? (fun p => decide (twoClubs ∈ p.2))).map (fun p => p.1)

/-- The fresh round state dictionary of `start_new_round`, game.py lines
127-138. -/
def newRoundState (round_number : Nat) (hands_data : List (Nat × List Card)) : SessionState :=
  let starter_id := findStarter hands_data
  { round_number := round_number
    hands := hands_data
    turn_user_id := starter_id
    trick_starter_id := starter_id
    phase := "passing"
    passed_cards := hands_data.map (fun p => (p.1, []))
    pass_direction := none
    current_trick := []
    lead_suit := none
    round_scores := hands_data.map (fun p => (p.1, 0))
    hearts_broken := false }

/-- Round numbering of `start_new_round` line 111:
`state.get("round_number", 0) + 1 if state else 1`. -/
def nextRoundNumber : Option SessionState → Nat
  | some state => state.round_number + 1
  | none => 1

/-- The recipient computation of `get_pass_recipient_id`, game.py lines
83-101. The Python integer expression `(sender_seat - 2 + num_players)` is
written `sender_seat + num_players - 2`, which agrees with it on the integers
since `sender_seat + num_players ≥ 2` for a seated sender. -/
def get_pass_recipient_id (sender_id : Nat) (direction : String)
    (players : List GamePlayer) : Nat :=
  match players.find? (fun p => decide (p.user_id = sender_id)) with
  | none => sender_id
  | some sender =>
      let num_players := players.length
      let recipient_seat :=
        if direction = "left" then some (sender.seat_number % num_players + 1)
        else if direction = "right" then
          some ((sender.seat_number + num_players - 2) % num_players + 1)
        else if direction = "across" then
          some ((sender.seat_number + 1) % num_players + 1)
        else none
      match recipient_seat with
      | none => sender_id
      | some rs =>
          match players.find? (fun p => decide (p.seat_number = rs)) with
          | none => sender_id
          | some p => p.user_id

/-- Lexicographic comparison of character lists by Unicode code point — the
order Python uses to compare the card wire strings. -/
def charListLt : List Char → List Char → Bool
  | [], [] => false
  | [], _ :: _ => true
  | _ :: _, [] => false
  | a :: as, b :: bs => if a < b then true else if b < a then false else charListLt as bs

/-- Insertion step for sorting a hand the way `sorted` sorts the card
strings: lexicographically by Unicode code point over `Card.toStr`. -/
def insertByStr (c : Card) : List Card → List Card
  | [] => [c]
  | d :: ds => if charListLt c.toStr.data d.toStr.data then c :: d :: ds else d :: insertByStr c ds

/-- The `sorted` call applied to each hand after pass resolution. -/
def sortHand (hand : List Card) : List Card := hand.foldr insertByStr []

/-- Pass resolution, game.py lines 322-337 (the branch taken once all four
players have submitted): every sender appends their three cards to the
recipient computed from the stored direction, the phase flips to playing and
each hand is sorted. `turn_user_id` is not touched by this code. -/
def resolvePasses (players : List GamePlayer) (st : SessionState) : SessionState :=
  let direction := st.pass_direction.getD ("")
  let hands := st.passed_cards.foldl
    (fun hands p =>
      let recipient_id := get_pass_recipient_id p.1 direction players
      dictSet hands recipient_id (((dictGet hands recipient_id).getD []) ++ p.2))
    st.hands
  { st with
    phase := "playing"
    hands := hands.map (fun p => (p.1, sortHand p.2)) }

/-- The shoot-the-moon scan of `process_round_end`, game.py lines 204-210: the
first user, in round-score dictionary order, whose score is exactly 26. -/
def findShooter (round_scores : List (Nat × Nat)) : Option Nat :=
  (round_scores.find? (fun p => decide (p.2 = 26))).map (fun p => p.1)

/-- The per-player `score_change` of `process_round_end`, game.py lines
214-222: with a shooter, 0 for the shooter and 26 for everyone else; without
one, the player round score. -/
def scoreChange (shooter : Option Nat) (round_scores : List (Nat × Nat))
    (player_id : Nat) : Nat :=
  match shooter with
  | some shooter_id => if player_id = shooter_id then 0 else 26
  | none => (dictGet round_scores player_id).getD 0

/-- The list of deltas `process_round_end` hands to `create_round_score` and
`update_player_total_score`, one per player. -/
def roundDeltas (player_ids : List Nat) (round_scores : List (Nat × Nat)) :
    List (Nat × Nat) :=
  player_ids.map (fun pid => (pid, scoreChange (findShooter round_scores) round_scores pid))

/-- The game-over test of `process_round_end` line 231:
`any(p.total_score >= 100 for p in game.players)`. -/
def gameEnds (players : List GamePlayer) : Bool :=
  players.any (fun p => decide (100 ≤ p.total_score))

/-- The comparison fold of Python `min` with key `total_score`: the running
best is replaced only by a strictly smaller key, so the first minimum in
iteration order survives. -/
def minFold (acc : GamePlayer) (l : List GamePlayer) : GamePlayer :=
  l.foldl (fun best q => if q.total_score < best.total_score then q else best) acc

/-- The winner selection `min(game.players, key=lambda p: p.total_score)`:
Python `min` returns the first element attaining the minimal key in iteration
order, which `minFold` reproduces. -/
def pythonMinByScore : List GamePlayer → Option GamePlayer
  | [] => none
  | p :: ps => some (minFold p ps)

/-- A persisted game row with its players (crud.py model view). -/
structure GameRec where
  id : Nat
  status : String
  players : List GamePlayer
deriving DecidableEq, Repr

/-- The relational store seen by crud.py: the games table plus the
autoincrement counter supplying fresh primary keys. -/
structure Db where
  games : List GameRec
  next_id : Nat
deriving DecidableEq, Repr

/-- The seat-search loop of `add_player_to_game` (crud.py lines 55-58):
`while next_seat in current_seat_numbers: next_seat += 1`. The fuel
`seats.length + 1` suffices because the candidates tried are distinct. -/
def nextSeatLoop (seats : List Nat) : Nat → Nat → Nat
  | 0, next_seat => next_seat
  | fuel + 1, next_seat =>
      if next_seat ∈ seats then nextSeatLoop seats fuel (next_seat + 1) else next_seat

/-- The first free seat number, starting the loop above at 1. -/
def firstFreeSeat (seats : List Nat) : Nat := nextSeatLoop seats (seats.length + 1) 1

/-- Embedding of `add_player_to_game` (backend crud.py lines 46-64): return
the game unchanged if the user already has a row, else seat them at the first
free seat with a fresh total score of 0. -/
def addPlayerToGame (g : GameRec) (uid : Nat) : GameRec :=
  if g.players.any (fun p => decide (p.user_id = uid)) then g
  else
    let next_seat := firstFreeSeat (g.players.map (fun p => p.seat_number))
    { g with players := g.players ++ [⟨uid, next_seat, 0⟩] }

/-- Embedding of `create_game`: a fresh waiting game with no players and the
next primary key. -/
def createGame (db : Db) : Db × GameRec :=
  let g : GameRec := { id := db.next_id, status := "waiting", players := [] }
  ({ games := db.games ++ [g], next_id := db.next_id + 1 }, g)

/-- Committing an updated game row: replace the row with the same primary
key. -/
def replaceGame (games : List GameRec) (g : GameRec) : List GameRec :=
  games.map (fun x => if x.id = g.id then g else x)

/-- The query plus comprehension of `find_or_create_game` (crud.py lines
75-80): waiting games NOT already containing the user, then those with fewer
than four players. -/
def eligibleGames (db : Db) (uid : Nat) : List GameRec :=
  (db.games.filter
    (fun g => decide (g.status = "waiting")
      && !(g.players.any (fun p => decide (p.user_id = uid))))).filter
    (fun g => decide (g.players.length < 4))

/-- Embedding of `find_or_create_game` (backend crud.py lines 73-87): filter
the waiting games NOT already containing the user, keep those with fewer than
four players, join the first or create a fresh game, then add the player. -/
def find_or_create_game (db : Db) (uid : Nat) : Db × GameRec :=
  match eligibleGames db uid with
  | game_to_join :: _ =>
      let g2 := addPlayerToGame game_to_join uid
      ({ db with games := replaceGame db.games g2 }, g2)
  | [] =>
      let r := createGame db
      let g2 := addPlayerToGame r.2 uid
      ({ r.1 with games := replaceGame r.1.games g2 }, g2)

/-- All thirteen ranks in deck order. -/
def allRanks : List Rank :=
  [.R2, .R3, .R4, .R5, .R6, .R7, .R8, .R9, .R10, .RJ, .RQ, .RK, .RA]

/-- Ranks 3 and up (a 12-card run). -/
def ranksFrom3 : List Rank :=
  [.R3, .R4, .R5, .R6, .R7, .R8, .R9, .R10, .RJ, .RQ, .RK, .RA]

/-- Ranks 5 and up (a 10-card run). -/
def ranksFrom5 : List Rank :=
  [.R5, .R6, .R7, .R8, .R9, .R10, .RJ, .RQ, .RK, .RA]

/-- A run of cards of one suit. -/
def suitRun (s : Suit) (rs : List Rank) : List Card := rs.map (fun r => ⟨s, r⟩)

/-- A four-seat table: users 1..4 on seats 1..4 with zero totals. -/
def demoPlayers : List GamePlayer :=
  [⟨1, 1, 0⟩, ⟨2, 2, 0⟩, ⟨3, 3, 0⟩, ⟨4, 4, 0⟩]

/-- A mid-round playing state where user 1 is on lead, hearts are unbroken
and the hand of user 1 consists only of hearts. -/
def allHeartsState : SessionState :=
  { round_number := 2
    hands := [(1, suitRun Suit.Hearts [.R2, .R5, .R9]),
              (2, suitRun Suit.Clubs [.R2, .R5, .R9]),
              (3, suitRun Suit.Spades [.R2, .R5, .R9]),
              (4, suitRun Suit.Diamonds [.R2, .R5, .R9])]
    turn_user_id := some 1
    trick_starter_id := some 1
    phase := "playing"
    passed_cards := [(1, []), (2, []), (3, []), (4, [])]
    pass_direction := some ("left")
    current_trick := []
    lead_suit := none
    round_scores := [(1, 0), (2, 0), (3, 0), (4, 0)]
    hearts_broken := false }

/-- A mid-round playing state where user 1 is on lead with hearts unbroken
and a MIXED hand: two hearts plus the 2 of clubs. -/
def mixedHeartsState : SessionState :=
  { round_number := 2
    hands := [(1, [⟨Suit.Hearts, Rank.R2⟩, ⟨Suit.Hearts, Rank.R5⟩, twoClubs]),
              (2, suitRun Suit.Clubs [.R5, .R9, .RJ]),
              (3, suitRun Suit.Spades [.R2, .R5, .R9]),
              (4, suitRun Suit.Diamonds [.R2, .R5, .R9])]
    turn_user_id := some 1
    trick_starter_id := some 1
    phase := "playing"
    passed_cards := [(1, []), (2, []), (3, []), (4, [])]
    pass_direction := some ("left")
    current_trick := []
    lead_suit := none
    round_scores := [(1, 0), (2, 0), (3, 0), (4, 0)]
    hearts_broken := false }

/-- A round about to start its first trick where the leader, user 1, holds
the 2 of clubs (each hand is a full 13-card suit). -/
def firstTrickWithTwoState : SessionState :=
  { round_number := 1
    hands := [(1, suitRun Suit.Clubs allRanks),
              (2, suitRun Suit.Diamonds allRanks),
              (3, suitRun Suit.Spades allRanks),
              (4, suitRun Suit.Hearts allRanks)]
    turn_user_id := some 1
    trick_starter_id := some 1
    phase := "playing"
    passed_cards := [(1, []), (2, []), (3, []), (4, [])]
    pass_direction := none
    current_trick := []
    lead_suit := none
    round_scores := [(1, 0), (2, 0), (3, 0), (4, 0)]
    hearts_broken := false }

/-- The passing phase of round 1 right after dealing: full 13-card hands, no
submission made yet; `start_new_round` has recorded user 1, the holder of the
2 of clubs, as `turn_user_id`. -/
def passingPhaseState : SessionState :=
  { firstTrickWithTwoState with
      phase := "passing"
      pass_direction := some ("left") }

/-- A round about to start its first trick where the leader, user 1, does NOT
hold the 2 of clubs (user 2 does); reachable because pass resolution leaves
`turn_user_id` at the pre-pass holder. All four hands hold 13 cards. -/
def firstTrickNoTwoState : SessionState :=
  { round_number := 1
    hands := [(1, suitRun Suit.Clubs ranksFrom3 ++ [⟨Suit.Diamonds, .R2⟩]),
              (2, twoClubs :: suitRun Suit.Diamonds ranksFrom3),
              (3, suitRun Suit.Spades allRanks),
              (4, suitRun Suit.Hearts allRanks)]
    turn_user_id := some 1
    trick_starter_id := some 1
    phase := "playing"
    passed_cards := [(1, []), (2, []), (3, []), (4, [])]
    pass_direction := none
    current_trick := []
    lead_suit := none
    round_scores := [(1, 0), (2, 0), (3, 0), (4, 0)]
    hearts_broken := false }

/-- A passing-phase state of round 1 (direction left) at the moment the
fourth submission arrives: every player has recorded three passed cards,
already removed from their hands; user 1, the pre-pass holder of the 2 of
clubs, is passing it to user 2. -/
def passReadyState : SessionState :=
  { round_number := 1
    hands := [(1, suitRun Suit.Clubs ranksFrom5),
              (2, suitRun Suit.Diamonds ranksFrom5),
              (3, suitRun Suit.Spades ranksFrom5),
              (4, suitRun Suit.Hearts ranksFrom5)]
    turn_user_id := some 1
    trick_starter_id := some 1
    phase := "passing"
    passed_cards := [(1, suitRun Suit.Clubs [.R2, .R3, .R4]),
                     (2, suitRun Suit.Diamonds [.R2, .R3, .R4]),
                     (3, suitRun Suit.Spades [.R2, .R3, .R4]),
                     (4, suitRun Suit.Hearts [.R2, .R3, .R4])]
    pass_direction := some ("left")
    current_trick := []
    lead_suit := none
    round_scores := [(1, 0), (2, 0), (3, 0), (4, 0)]
    hearts_broken := false }

/-- End-of-round totals of spec scenario 4: user 3 crossed 100, user 4 has
the lowest total. -/
def finalPlayers : List GamePlayer :=
  [⟨1, 1, 52⟩, ⟨2, 2, 78⟩, ⟨3, 3, 104⟩, ⟨4, 4, 22⟩]

theorem get_trick_winner_cons (c : Card) (rest : List Card) (lead_suit : Suit) :
    get_trick_winner (c :: rest) lead_suit = some (trickFold lead_suit c rest) := rfl

theorem trickFold_nil (lead_suit : Suit) (acc : Card) :
    trickFold lead_suit acc [] = acc := rfl

theorem trickFold_cons (lead_suit : Suit) (acc d : Card) (l : List Card) :
    trickFold lead_suit acc (d :: l) =
      trickFold lead_suit
        (if d.suit = lead_suit ∧ d.value > acc.value then d else acc) l := rfl

/-- Invariant of the fold inside `get_trick_winner`: starting from an
accumulator of the lead suit, the result stays in the lead suit, is the
accumulator or one of the folded cards, never decreases in value, and
dominates every lead-suit card in the list. -/
theorem trickFold_spec (lead_suit : Suit) :
    ∀ (l : List Card) (acc : Card), acc.suit = lead_suit →
      (trickFold lead_suit acc l).suit = lead_suit ∧
      (trickFold lead_suit acc l = acc ∨ trickFold lead_suit acc l ∈ l) ∧
      acc.value ≤ (trickFold lead_suit acc l).value ∧
      (∀ c ∈ l, c.suit = lead_suit → c.value ≤ (trickFold lead_suit acc l).value) := by
  intro l
  induction l with
  | nil =>
      intro acc hacc
      refine ⟨hacc, Or.inl rfl, le_refl _, ?_⟩
      intro c hc
      exact absurd hc (List.not_mem_nil c)
  | cons d l ih =>
      intro acc hacc
      rw [trickFold_cons]
      by_cases hd : d.suit = lead_suit ∧ d.value > acc.value
      · rw [if_pos hd]
        obtain ⟨h1, h2, h3, h4⟩ := ih d hd.1
        refine ⟨h1, ?_, ?_, ?_⟩
        · rcases h2 with h2 | h2
          · exact Or.inr (List.mem_cons.mpr (Or.inl h2))
          · exact Or.inr (List.mem_cons_of_mem d h2)
        · exact le_trans (le_of_lt hd.2) h3
        · intro c hc hcs
          rcases List.mem_cons.mp hc with rfl | hc
          · exact h3
          · exact h4 c hc hcs
      · rw [if_neg hd]
        obtain ⟨h1, h2, h3, h4⟩ := ih acc hacc
        refine ⟨h1, ?_, h3, ?_⟩
        · rcases h2 with h2 | h2
          · exact Or.inl h2
          · exact Or.inr (List.mem_cons_of_mem d h2)
        · intro c hc hcs
          rcases List.mem_cons.mp hc with rfl | hc
          · rcases Nat.lt_or_ge acc.value c.value with hlt | hge
            · exact absurd ⟨hcs, hlt⟩ hd
            · exact le_trans hge h3
          · exact h4 c hc hcs

/-- C1 counterexample: `get_trick_winner` seeds the search with the first
played card regardless of its suit, so on the one-card trick [A♥] with lead
suit Clubs it returns a card whose suit differs from the lead suit, refuting
the claim as stated over every sequence and every lead suit. -/
theorem C1_counterexample :
    get_trick_winner [⟨Suit.Hearts, Rank.RA⟩] Suit.Clubs
        = some ⟨Suit.Hearts, Rank.RA⟩ ∧
    (⟨Suit.Hearts, Rank.RA⟩ : Card).suit ≠ Suit.Clubs := by
  decide

/-- C1 (amended): whenever the first played card is of the lead suit — which
is always the case in the game, since `process_trick_end` takes the lead suit
from the first card of the trick — `get_trick_winner` returns a played card of
the lead suit whose rank value is maximal among the lead-suit cards played, so
a card of another suit never wins. -/
theorem C1_trick_winner_lead_suit_maximal (c0 : Card) (rest : List Card)
    (lead_suit : Suit) (h0 : c0.suit = lead_suit) :
    ∃ w, get_trick_winner (c0 :: rest) lead_suit = some w ∧
      w ∈ c0 :: rest ∧ w.suit = lead_suit ∧
      ∀ c ∈ c0 :: rest, c.suit = lead_suit → c.value ≤ w.value := by
  obtain ⟨h1, h2, h3, h4⟩ := trickFold_spec lead_suit rest c0 h0
  refine ⟨trickFold lead_suit c0 rest, get_trick_winner_cons c0 rest lead_suit, ?_, h1, ?_⟩
  · rcases h2 with h2 | h2
    · rw [h2]; exact List.mem_cons_self c0 rest
    · exact List.mem_cons_of_mem c0 h2
  · intro c hc hcs
    rcases List.mem_cons.mp hc with rfl | hc
    · exact h3
    · exact h4 c hc hcs

/-- C1 witness: spec scenario 2 — trick 2♣, K♣, A♥, 3♣ with lead suit Clubs;
the winner is of the lead suit and value-maximal among the clubs played
(indeed K♣). -/
theorem C1_witness :
    (⟨Suit.Clubs, Rank.R2⟩ : Card).suit = Suit.Clubs ∧
    (∃ w, get_trick_winner
        [⟨Suit.Clubs, Rank.R2⟩, ⟨Suit.Clubs, Rank.RK⟩,
         ⟨Suit.Hearts, Rank.RA⟩, ⟨Suit.Clubs, Rank.R3⟩] Suit.Clubs = some w ∧
      w ∈ [⟨Suit.Clubs, Rank.R2⟩, ⟨Suit.Clubs, Rank.RK⟩,
         ⟨Suit.Hearts, Rank.RA⟩, ⟨Suit.Clubs, Rank.R3⟩] ∧
      w.suit = Suit.Clubs ∧
      ∀ c ∈ [(⟨Suit.Clubs, Rank.R2⟩ : Card), ⟨Suit.Clubs, Rank.RK⟩,
         ⟨Suit.Hearts, Rank.RA⟩, ⟨Suit.Clubs, Rank.R3⟩],
        c.suit = Suit.Clubs → c.value ≤ w.value) := by
  refine ⟨rfl, C1_trick_winner_lead_suit_maximal ⟨Suit.Clubs, Rank.R2⟩
    [⟨Suit.Clubs, Rank.RK⟩, ⟨Suit.Hearts, Rank.RA⟩, ⟨Suit.Clubs, Rank.R3⟩]
    Suit.Clubs rfl⟩

/-- C2: evaluation at the failing input, over the validation chain as it
executes at runtime. User 1 leads a heart from a MIXED hand (it also holds
the 2 of clubs) while hearts_broken is false; the claim demands a
HeartsNotBroken rejection, but the play is accepted: the lead suit comes
back from the store as the truthy string "None", so the guard of game.py
line 365 never fires and no heart lead is ever rejected. -/
theorem C2_heart_lead_accepted_at_runtime :
    mixedHeartsState.hearts_broken = false ∧
    mixedHeartsState.current_trick = [] ∧
    storedLeadSuit mixedHeartsState.lead_suit = "None" ∧
    (handOf mixedHeartsState 1).any (fun c => decide (c.suit ≠ Suit.Hearts)) = true ∧
    validatePlayLoaded mixedHeartsState 1 ⟨Suit.Hearts, Rank.R2⟩ = none := by
  decide

/-- Violations the chain does detect leave the stored state untouched: the
handler answers with the message and returns before `set_game_state`. -/
theorem playCardHandler_error_unchanged (players : List GamePlayer)
    (st : SessionState) (pid : Nat) (c : Card) (msg : String)
    (h : validatePlay st pid c = some msg) :
    playCardHandler players st pid c = (some msg, st) := by
  unfold playCardHandler
  rw [h]

/-- C7: evaluation at the failing input. During the passing phase the
play_card handler runs no phase check (rule 1, WrongPhase, of the play
validation): the recorded turn holder can play the 2 of clubs before anyone
has passed; the play passes the chain both with the typed lead suit and as
executed at runtime, no error frame is produced, and the state is mutated —
the card leaves the hand and lands on current_trick — contradicting the
claim that every play-validation violation yields a private error and an
unchanged state. -/
theorem C7_wrong_phase_play_mutates_state :
    passingPhaseState.phase = "passing" ∧
    validatePlay passingPhaseState 1 twoClubs = none ∧
    validatePlayLoaded passingPhaseState 1 twoClubs = none ∧
    (playCardHandler demoPlayers passingPhaseState 1 twoClubs).1 = none ∧
    ((playCardHandler demoPlayers passingPhaseState 1 twoClubs).2).current_trick
      = [TrickEntry.mk 1 twoClubs] ∧
    twoClubs ∉ handOf ((playCardHandler demoPlayers passingPhaseState 1 twoClubs).2) 1 ∧
    (playCardHandler demoPlayers passingPhaseState 1 twoClubs).2 ≠ passingPhaseState := by
  decide

/-- Flattened form of `applyPlay`: the sequence of mutations collapses to a
single record update. -/
theorem applyPlay_eq (players : List GamePlayer) (st : SessionState) (pid : Nat) (c : Card) :
    applyPlay players st pid c =
      { st with
        hands := dictSet st.hands pid ((handOf st pid).erase c)
        hearts_broken := st.hearts_broken || decide (c.suit = Suit.Hearts)
          || decide (c = queenSpades)
        lead_suit := if st.current_trick = [] then some c.suit else st.lead_suit
        current_trick := st.current_trick ++ [TrickEntry.mk pid c]
        turn_user_id := if st.current_trick.length + 1 < 4
          then nextPlayerAfter players pid else none } := by
  unfold applyPlay
  by_cases h : st.current_trick = []
  · simp only [if_pos h]
    by_cases h4 : st.current_trick.length + 1 < 4
    · rw [if_pos (by simpa using h4), if_pos h4]
    · rw [if_neg (by simpa using h4), if_neg h4]
  · simp only [if_neg h]
    by_cases h4 : st.current_trick.length + 1 < 4
    · rw [if_pos (by simpa using h4), if_pos h4]
    · rw [if_neg (by simpa using h4), if_neg h4]

/-- Fields of the session state that `process_trick_end` rewrites or
preserves: hearts_broken is untouched, the trick and lead suit are cleared,
and the turn goes to the same user as the trick starter. -/
theorem processTrickEndState_fields (st st2 : SessionState)
    (h : processTrickEndState st = some st2) :
    st2.hearts_broken = st.hearts_broken ∧ st2.current_trick = [] ∧
    st2.lead_suit = none ∧ st2.turn_user_id = st2.trick_starter_id := by
  simp only [processTrickEndState] at h
  split at h
  · exact Option.noConfusion h
  · split at h
    · exact Option.noConfusion h
    · split at h
      · exact Option.noConfusion h
      · have h2 := Option.some.inj h
        subst h2
        exact ⟨rfl, rfl, rfl, rfl⟩

/-- The winner installed by `process_trick_end`: the turn goes to a player
whose trick entry holds exactly the card `get_trick_winner` selects for the
lead suit of the first entry. -/
theorem processTrickEnd_winner (st st2 : SessionState)
    (h : processTrickEndState st = some st2) :
    ∃ e ∈ st.current_trick, st2.turn_user_id = some e.player_id ∧
      ∃ ls, trickLeadSuit st.current_trick = some ls ∧
        get_trick_winner (st.current_trick.map (fun x => x.card)) ls = some e.card := by
  cases ht : st.current_trick with
  | nil => rw [processTrickEndState, ht] at h; exact Option.noConfusion h
  | cons e0 rest =>
      rw [processTrickEndState, ht] at h
      simp only [trickLeadSuit, List.map_cons, get_trick_winner_cons] at h
      cases hf : (e0 :: rest).find?
          (fun e => decide (e.card = trickFold e0.card.suit e0.card (rest.map (fun x => x.card)))) with
      | none => rw [hf] at h; exact Option.noConfusion h
      | some f =>
          rw [hf] at h
          have h2 := Option.some.inj h
          subst h2
          refine ⟨f, ?_, rfl, e0.card.suit, rfl, ?_⟩
          · exact List.mem_of_find?_eq_some hf
          · simp only [List.map_cons, get_trick_winner_cons]
            have hfp := List.find?_some hf
            have hcard : f.card = trickFold e0.card.suit e0.card (rest.map (fun x => x.card)) :=
              of_decide_eq_true hfp
            rw [hcard]

/-- C6: evaluation at the failing input, over the validation chain as it
executes at runtime. On the very first play of a round — all four hands hold
13 cards, the trick is empty — a card other than the 2 of clubs is accepted
whether the leading hand holds the 2 of clubs or not: the lead suit comes
back from the store as the truthy string "None", so the MustLeadTwoOfClubs
guard of game.py line 359 never fires. -/
theorem C6_non_two_clubs_lead_accepted_at_runtime :
    firstTrickWithTwoState.hands.all (fun p => decide (p.2.length = 13)) = true ∧
    firstTrickWithTwoState.current_trick = [] ∧
    twoClubs ∈ handOf firstTrickWithTwoState 1 ∧
    storedLeadSuit firstTrickWithTwoState.lead_suit = "None" ∧
    (⟨Suit.Clubs, Rank.R3⟩ : Card) ≠ twoClubs ∧
    validatePlayLoaded firstTrickWithTwoState 1 ⟨Suit.Clubs, Rank.R3⟩ = none ∧
    firstTrickNoTwoState.hands.all (fun p => decide (p.2.length = 13)) = true ∧
    twoClubs ∉ handOf firstTrickNoTwoState 1 ∧
    validatePlayLoaded firstTrickNoTwoState 1 ⟨Suit.Clubs, Rank.R3⟩ = none := by
  decide

/-- C8: hearts_broken starts a round false; a valid play sets it to exactly
the old value OR-ed with whether the played card is a heart or the queen of
spades (so it is set the first time such a card lands on the table and is
never cleared); an invalid play, trick completion and pass resolution all
leave it unchanged — within a round it is monotone non-decreasing. -/
theorem C8_hearts_broken_monotonic :
    (∀ (r : Nat) (hands_data : List (Nat × List Card)),
      (newRoundState r hands_data).hearts_broken = false) ∧
    (∀ (players : List GamePlayer) (st : SessionState) (pid : Nat) (c : Card),
      validatePlay st pid c = none →
      ((playCardHandler players st pid c).2).hearts_broken
        = (st.hearts_broken || decide (c.suit = Suit.Hearts) || decide (c = queenSpades))) ∧
    (∀ (players : List GamePlayer) (st : SessionState) (pid : Nat) (c : Card),
      st.hearts_broken = true →
      ((playCardHandler players st pid c).2).hearts_broken = true) ∧
    (∀ (st st2 : SessionState), processTrickEndState st = some st2 →
      st2.hearts_broken = st.hearts_broken) ∧
    (∀ (players : List GamePlayer) (st : SessionState),
      (resolvePasses players st).hearts_broken = st.hearts_broken) := by
  refine ⟨fun r hands_data => rfl, ?_, ?_, ?_, fun players st => rfl⟩
  · intro players st pid c h
    simp only [playCardHandler, h]
    rw [applyPlay_eq]
  · intro players st pid c h
    cases hv : validatePlay st pid c with
    | some msg => simp only [playCardHandler, hv]; exact h
    | none =>
        simp only [playCardHandler, hv]
        rw [applyPlay_eq]
        show (st.hearts_broken || _ || _) = true
        rw [h, Bool.true_or, Bool.true_or]
  · intro st st2 h
    exact (processTrickEndState_fields st st2 h).1

/-- C8 witness: the opening 2♣ lead keeps hearts_broken false, matching the
OR formula at a concrete state. -/
theorem C8_witness :
    validatePlay firstTrickWithTwoState 1 twoClubs = none ∧
    ((playCardHandler demoPlayers firstTrickWithTwoState 1 twoClubs).2).hearts_broken
      = (firstTrickWithTwoState.hearts_broken || decide (twoClubs.suit = Suit.Hearts)
          || decide (twoClubs = queenSpades)) := by
  exact ⟨by decide, C8_hearts_broken_monotonic.2.1 demoPlayers firstTrickWithTwoState 1
    twoClubs (by decide)⟩

/-- C10: after a valid play the trick gains exactly one entry; while the
trick stays under four cards the turn moves to the user seated at
`(current seat % 4) + 1` — ascending seat order wrapping from 4 to 1 — and on
the fourth card the turn becomes null; trick completion then hands the turn
to the player of the winning card. -/
theorem C10_turn_rotation (players : List GamePlayer) (st : SessionState)
    (pid : Nat) (c : Card) (current next : GamePlayer)
    (hv : validatePlay st pid c = none)
    (hcur : players.find? (fun p => decide (p.user_id = pid)) = some current)
    (hnext : players.find? (fun p =>
      decide (p.seat_number = current.seat_number % 4 + 1)) = some next) :
    ((playCardHandler players st pid c).2).current_trick
        = st.current_trick ++ [TrickEntry.mk pid c] ∧
    (st.current_trick.length + 1 < 4 →
      ((playCardHandler players st pid c).2).turn_user_id = some next.user_id) ∧
    (¬ st.current_trick.length + 1 < 4 →
      ((playCardHandler players st pid c).2).turn_user_id = none) ∧
    (∀ (s s2 : SessionState), processTrickEndState s = some s2 →
      ∃ e ∈ s.current_trick, s2.turn_user_id = some e.player_id ∧
        ∃ ls, trickLeadSuit s.current_trick = some ls ∧
          get_trick_winner (s.current_trick.map (fun x => x.card)) ls = some e.card) := by
  refine ⟨?_, ?_, ?_, processTrickEnd_winner⟩
  · simp only [playCardHandler, hv]
    rw [applyPlay_eq]
  · intro hlt
    simp only [playCardHandler, hv]
    rw [applyPlay_eq]
    show (if st.current_trick.length + 1 < 4 then nextPlayerAfter players pid else none)
      = some next.user_id
    rw [if_pos hlt]
    simp only [nextPlayerAfter, hcur, hnext, Option.map_some']
  · intro hge
    simp only [playCardHandler, hv]
    rw [applyPlay_eq]
    show (if st.current_trick.length + 1 < 4 then nextPlayerAfter players pid else none) = none
    rw [if_neg hge]

/-- C10 witness: the opening lead by user 1 (seat 1) passes the turn to user
2 (seat 2). -/
theorem C10_witness :
    validatePlay firstTrickWithTwoState 1 twoClubs = none ∧
    firstTrickWithTwoState.current_trick.length + 1 < 4 ∧
    ((playCardHandler demoPlayers firstTrickWithTwoState 1 twoClubs).2).turn_user_id
      = some 2 := by
  refine ⟨by decide, by decide, ?_⟩
  exact (C10_turn_rotation demoPlayers firstTrickWithTwoState 1 twoClubs
    ⟨1, 1, 0⟩ ⟨2, 2, 0⟩ (by decide) (by decide) (by decide)).2.1 (by decide)

/-- C3: evaluation at the failing input. In a round-1 left pass where user 1
(the pre-pass holder and round starter) passes the 2♣ to user 2, pass
resolution flips the phase to playing and sorts the hands, but leaves
`turn_user_id` at user 1 even though the 2♣ now sits in the hand of user 2 —
the holder of the 2♣ is NOT recomputed after the exchange (the pass branch of
game.py lines 322-337 never writes `turn_user_id`). -/
theorem C3_turn_not_recomputed_after_pass :
    (resolvePasses demoPlayers passReadyState).phase = "playing" ∧
    (resolvePasses demoPlayers passReadyState).turn_user_id = some 1 ∧
    twoClubs ∈ ((dictGet (resolvePasses demoPlayers passReadyState).hands 2).getD []) ∧
    twoClubs ∉ ((dictGet (resolvePasses demoPlayers passReadyState).hands 1).getD []) ∧
    findStarter (resolvePasses demoPlayers passReadyState).hands = some 2 := by
  decide

/-- C4: evaluation of the score-delta computation of `process_round_end`
(game.py lines 204-226) at a completed round. With round scores
{1: 26, 2: 0, 3: 0, 4: 0} the shooter gets 0 and the others 26 each (sum 78);
with no shooter the deltas equal the round scores (sum 26). These are the
values the code is written to persist; at runtime the first statement of
`process_round_end` raises TypeError, because it passes `round_number` to
`crud.create_round`, whose backend signature accepts only `db` and `game_id`,
so the deltas are never actually stored. -/
theorem C4_round_delta_values :
    roundDeltas [1, 2, 3, 4] [(1, 26), (2, 0), (3, 0), (4, 0)]
      = [(1, 0), (2, 26), (3, 26), (4, 26)] ∧
    ((roundDeltas [1, 2, 3, 4] [(1, 26), (2, 0), (3, 0), (4, 0)]).map
      (fun p => p.2)).sum = 78 ∧
    roundDeltas [1, 2, 3, 4] [(1, 13), (2, 13), (3, 0), (4, 0)]
      = [(1, 13), (2, 13), (3, 0), (4, 0)] ∧
    ((roundDeltas [1, 2, 3, 4] [(1, 13), (2, 13), (3, 0), (4, 0)]).map
      (fun p => p.2)).sum = 26 := by
  decide

theorem minFold_cons (acc q : GamePlayer) (l : List GamePlayer) :
    minFold acc (q :: l)
      = minFold (if q.total_score < acc.total_score then q else acc) l := rfl

/-- Invariant of the Python `min` fold: the result is the accumulator or a
strictly better list element, its key bounds every key seen, and — when the
seats strictly increase along the traversal — every tie has a seat no smaller
than the result, i.e. the first minimum wins. -/
theorem minFold_spec :
    ∀ (l : List GamePlayer) (acc : GamePlayer),
      (minFold acc l = acc
        ∨ (minFold acc l ∈ l ∧ (minFold acc l).total_score < acc.total_score)) ∧
      (∀ p ∈ acc :: l, (minFold acc l).total_score ≤ p.total_score) ∧
      ((acc :: l).Pairwise (fun a b => a.seat_number < b.seat_number) →
        ∀ p ∈ acc :: l, p.total_score = (minFold acc l).total_score →
          (minFold acc l).seat_number ≤ p.seat_number) := by
  intro l
  induction l with
  | nil =>
      intro acc
      refine ⟨Or.inl rfl, ?_, ?_⟩
      · intro p hp
        rcases List.mem_cons.mp hp with rfl | hp
        · exact le_refl _
        · exact absurd hp (List.not_mem_nil p)
      · intro _ p hp _
        rcases List.mem_cons.mp hp with rfl | hp
        · exact le_refl _
        · exact absurd hp (List.not_mem_nil p)
  | cons q l ih =>
      intro acc
      rw [minFold_cons]
      by_cases hq : q.total_score < acc.total_score
      · rw [if_pos hq]
        obtain ⟨h1, h2, h3⟩ := ih q
        refine ⟨?_, ?_, ?_⟩
        · rcases h1 with h1 | h1
          · exact Or.inr ⟨by rw [h1]; exact List.mem_cons_self _ _, by rw [h1]; exact hq⟩
          · exact Or.inr ⟨List.mem_cons_of_mem q h1.1, lt_trans h1.2 hq⟩
        · intro p hp
          rcases List.mem_cons.mp hp with rfl | hp
          · exact le_trans (h2 q (List.mem_cons_self _ _)) (le_of_lt hq)
          · exact h2 p hp
        · intro hpair p hp hscore
          have hpairtail : (q :: l).Pairwise (fun a b => a.seat_number < b.seat_number) :=
            (List.pairwise_cons.mp hpair).2
          rcases List.mem_cons.mp hp with rfl | hp
          · exfalso
            have hlow := h2 q (List.mem_cons_self _ _)
            omega
          · exact h3 hpairtail p hp hscore
      · rw [if_neg hq]
        obtain ⟨h1, h2, h3⟩ := ih acc
        have hle : acc.total_score ≤ q.total_score := le_of_not_lt hq
        refine ⟨?_, ?_, ?_⟩
        · rcases h1 with h1 | h1
          · exact Or.inl h1
          · exact Or.inr ⟨List.mem_cons_of_mem q h1.1, h1.2⟩
        · intro p hp
          rcases List.mem_cons.mp hp with rfl | hp
          · exact h2 _ (List.mem_cons_self _ _)
          · rcases List.mem_cons.mp hp with rfl | hp
            · exact le_trans (h2 acc (List.mem_cons_self _ _)) hle
            · exact h2 p (List.mem_cons_of_mem acc hp)
        · intro hpair p hp hscore
          have hhead := (List.pairwise_cons.mp hpair).1
          have hacc_q : acc.seat_number < q.seat_number :=
            hhead q (List.mem_cons_self _ _)
          have hql : (q :: l).Pairwise (fun a b => a.seat_number < b.seat_number) :=
            (List.pairwise_cons.mp hpair).2
          have hpair2 : (acc :: l).Pairwise (fun a b => a.seat_number < b.seat_number) :=
            List.pairwise_cons.mpr
              ⟨fun b hb => hhead b (List.mem_cons_of_mem q hb),
               (List.pairwise_cons.mp hql).2⟩
          rcases List.mem_cons.mp hp with rfl | hp
          · exact h3 hpair2 _ (List.mem_cons_self _ _) hscore
          · rcases List.mem_cons.mp hp with rfl | hp
            · rcases h1 with h1 | h1
              · rw [h1]; exact le_of_lt hacc_q
              · exfalso
                have hlow := h2 acc (List.mem_cons_self _ _)
                omega
            · exact h3 hpair2 p (List.mem_cons_of_mem acc hp) hscore

/-- C5: after totals are updated, the game ends exactly when some seated
player has total_score at least 100; the declared winner is a seated player
whose total is minimal, and — the players relationship listing seats in
ascending order — any player tying that total sits at a seat no lower than
the winner, so ties go to the lowest seat; when nobody reached 100 the next
round is started with the round number incremented by one. -/
theorem C5_game_end_and_winner (players : List GamePlayer) (st : SessionState)
    (hpair : players.Pairwise (fun a b => a.seat_number < b.seat_number)) :
    (gameEnds players = true ↔ ∃ p ∈ players, 100 ≤ p.total_score) ∧
    (∀ w, pythonMinByScore players = some w →
      w ∈ players ∧
      (∀ p ∈ players, w.total_score ≤ p.total_score) ∧
      (∀ p ∈ players, p.total_score = w.total_score → w.seat_number ≤ p.seat_number)) ∧
    (gameEnds players = false → nextRoundNumber (some st) = st.round_number + 1) := by
  refine ⟨?_, ?_, fun _ => rfl⟩
  · simp [gameEnds, List.any_eq_true]
  · intro w hw
    cases players with
    | nil => exact Option.noConfusion hw
    | cons p ps =>
        have hw2 : minFold p ps = w := Option.some.inj hw
        obtain ⟨h1, h2, h3⟩ := minFold_spec ps p
        subst hw2
        refine ⟨?_, h2, h3 hpair⟩
        rcases h1 with h1 | h1
        · rw [h1]; exact List.mem_cons_self _ _
        · exact List.mem_cons_of_mem _ h1.1

/-- C5 witness: spec scenario 4 — totals 52, 78, 104, 22 on seats 1..4; user
3 crossed 100, so the game ends and the winner is user 4 with the lowest
total. -/
theorem C5_witness :
    finalPlayers.Pairwise (fun a b => a.seat_number < b.seat_number) ∧
    gameEnds finalPlayers = true ∧
    pythonMinByScore finalPlayers = some ⟨4, 4, 22⟩ ∧
    (⟨4, 4, 22⟩ : GamePlayer) ∈ finalPlayers ∧
    (∀ p ∈ finalPlayers, (⟨4, 4, 22⟩ : GamePlayer).total_score ≤ p.total_score) := by
  have h := C5_game_end_and_winner finalPlayers allHeartsState (by decide)
  have hmin := h.2.1 ⟨4, 4, 22⟩ (by decide)
  exact ⟨by decide, by decide, by decide, hmin.1, hmin.2.1⟩

theorem addPlayerToGame_id (g : GameRec) (uid : Nat) :
    (addPlayerToGame g uid).id = g.id := by
  unfold addPlayerToGame; split <;> rfl

theorem addPlayerToGame_status (g : GameRec) (uid : Nat) :
    (addPlayerToGame g uid).status = g.status := by
  unfold addPlayerToGame; split <;> rfl

theorem addPlayerToGame_of_mem (g : GameRec) (uid : Nat)
    (h : g.players.any (fun p => decide (p.user_id = uid)) = true) :
    addPlayerToGame g uid = g := by
  unfold addPlayerToGame; rw [if_pos h]

theorem addPlayerToGame_contains (g : GameRec) (uid : Nat) :
    (addPlayerToGame g uid).players.any (fun p => decide (p.user_id = uid)) = true := by
  unfold addPlayerToGame
  by_cases h : g.players.any (fun p => decide (p.user_id = uid)) = true
  · rw [if_pos h]; exact h
  · rw [if_neg h]
    simp [List.any_append]

theorem mem_eligibleGames (db : Db) (uid : Nat) (g : GameRec)
    (h : g ∈ eligibleGames db uid) :
    g ∈ db.games ∧ g.status = "waiting" ∧
    g.players.any (fun p => decide (p.user_id = uid)) = false ∧
    g.players.length < 4 := by
  unfold eligibleGames at h
  have h1 := List.mem_filter.mp h
  have h2 := List.mem_filter.mp h1.1
  have h3 := h2.2
  rw [Bool.and_eq_true] at h3
  refine ⟨h2.1, of_decide_eq_true h3.1, ?_, of_decide_eq_true h1.2⟩
  simpa using h3.2

/-- The game returned by `find_or_create_game` contains the user and is still
waiting; it sits in the updated store, and the store keeps distinct primary
keys that stay below the autoincrement counter. -/
theorem find_or_create_game_spec (db : Db) (uid : Nat)
    (hnodup : (db.games.map (fun g => g.id)).Nodup)
    (hbound : ∀ g ∈ db.games, g.id < db.next_id) :
    ((find_or_create_game db uid).2.players.any (fun p => decide (p.user_id = uid)) = true) ∧
    ((find_or_create_game db uid).2.status = "waiting") ∧
    ((find_or_create_game db uid).2 ∈ (find_or_create_game db uid).1.games) ∧
    (((find_or_create_game db uid).1.games.map (fun g => g.id)).Nodup) ∧
    (∀ g ∈ (find_or_create_game db uid).1.games, g.id < (find_or_create_game db uid).1.next_id) := by
  cases he : eligibleGames db uid with
  | cons g0 tl =>
      obtain ⟨hg0mem, hg0w, hg0no, hg0len⟩ :=
        mem_eligibleGames db uid g0 (he ▸ List.mem_cons_self g0 tl)
      simp only [find_or_create_game, he]
      have hid : (addPlayerToGame g0 uid).id = g0.id := addPlayerToGame_id g0 uid
      have hids : ((replaceGame db.games (addPlayerToGame g0 uid)).map (fun g => g.id))
          = (db.games.map (fun g => g.id)) := by
        unfold replaceGame
        rw [List.map_map]
        apply List.map_congr_left
        intro x hx
        simp only [Function.comp_apply]
        by_cases hxid : x.id = (addPlayerToGame g0 uid).id
        · rw [if_pos hxid]; exact hxid.symm
        · rw [if_neg hxid]
      refine ⟨addPlayerToGame_contains g0 uid, ?_, ?_, ?_, ?_⟩
      · rw [addPlayerToGame_status]; exact hg0w
      · unfold replaceGame
        exact List.mem_map.mpr ⟨g0, hg0mem, by rw [if_pos hid.symm]⟩
      · rw [hids]; exact hnodup
      · intro g hg
        unfold replaceGame at hg
        obtain ⟨x, hx, hxe⟩ := List.mem_map.mp hg
        by_cases hxid : x.id = (addPlayerToGame g0 uid).id
        · rw [if_pos hxid] at hxe
          subst hxe
          show (addPlayerToGame g0 uid).id < db.next_id
          rw [hid]
          exact hbound g0 hg0mem
        · rw [if_neg hxid] at hxe
          subst hxe
          exact hbound x hx
  | nil =>
      simp only [find_or_create_game, he]
      have hid : (addPlayerToGame (createGame db).2 uid).id = db.next_id :=
        addPlayerToGame_id (createGame db).2 uid
      have hrep : replaceGame (db.games ++ [(createGame db).2]) (addPlayerToGame (createGame db).2 uid)
          = db.games ++ [addPlayerToGame (createGame db).2 uid] := by
        unfold replaceGame
        rw [List.map_append]
        congr 1
        · have : ∀ x ∈ db.games,
              (if x.id = (addPlayerToGame (createGame db).2 uid).id
                then addPlayerToGame (createGame db).2 uid else x) = x := by
            intro x hx

            rw [if_neg]
            rw [hid]
            exact Nat.ne_of_lt (hbound x hx)
          rw [List.map_congr_left this, List.map_id']
        · simp only [List.map_cons, List.map_nil]
          rw [if_pos (show (createGame db).2.id = (addPlayerToGame (createGame db).2 uid).id
            from hid.symm)]
      refine ⟨addPlayerToGame_contains _ uid, ?_, ?_, ?_, ?_⟩
      · rw [addPlayerToGame_status]; rfl
      · show addPlayerToGame (createGame db).2 uid ∈
          replaceGame (db.games ++ [(createGame db).2]) (addPlayerToGame (createGame db).2 uid)
        rw [hrep]
        exact List.mem_append_right _ (List.mem_cons_self _ _)
      · show ((replaceGame (db.games ++ [(createGame db).2])
            (addPlayerToGame (createGame db).2 uid)).map (fun g => g.id)).Nodup
        rw [hrep, List.map_append]
        rw [List.nodup_append]
        refine ⟨hnodup, by simp, ?_⟩
        intro a ha hb
        simp only [List.map_cons, List.map_nil, List.mem_singleton] at hb
        rw [hid] at hb
        obtain ⟨x, hx, hxe⟩ := List.mem_map.mp ha
        have hlt := hbound x hx
        rw [hxe, hb] at hlt
        exact lt_irrefl _ hlt
      · intro g hg
        have hg2 : g ∈ replaceGame (db.games ++ [(createGame db).2])
            (addPlayerToGame (createGame db).2 uid) := hg
        rw [hrep] at hg2
        show g.id < db.next_id + 1
        rcases List.mem_append.mp hg2 with hg3 | hg3
        · exact Nat.lt_succ_of_lt (hbound g hg3)
        · rw [List.mem_singleton] at hg3
          subst hg3
          rw [hid]
          exact Nat.lt_succ_self _

/-- C9 counterexample: starting from an empty store, the first call seats
user 7 at game 1; the second call excludes game 1 from the search (the filter
demands the user not already be in the game), creates game 2 and seats the
user there — the two calls do not return the same table, refuting
idempotence. -/
theorem C9_counterexample :
    ((find_or_create_game (Db.mk [] 1) 7).2).id = 1 ∧
    ((find_or_create_game (Db.mk [] 1) 7).2).players = [⟨7, 1, 0⟩] ∧
    ((find_or_create_game (find_or_create_game (Db.mk [] 1) 7).1 7).2).id = 2 ∧
    ((find_or_create_game (Db.mk [] 1) 7).2).id
      ≠ ((find_or_create_game (find_or_create_game (Db.mk [] 1) 7).1 7).2).id := by
  decide

/-- C9 (amended): `find_or_create_game` is NOT idempotent per user — because
the query excludes waiting games that already contain the caller, a second
call (with distinct primary keys below the autoincrement counter) always
returns a game with a different id — while `add_player_to_game` alone IS
idempotent: a user already seated in the game is returned unchanged. -/
theorem C9_second_call_differs (db : Db) (uid : Nat)
    (hnodup : (db.games.map (fun g => g.id)).Nodup)
    (hbound : ∀ g ∈ db.games, g.id < db.next_id) :
    (∀ (g : GameRec), g.players.any (fun p => decide (p.user_id = uid)) = true →
      addPlayerToGame g uid = g) ∧
    ((find_or_create_game (find_or_create_game db uid).1 uid).2).id
      ≠ ((find_or_create_game db uid).2).id := by
  refine ⟨fun g h => addPlayerToGame_of_mem g uid h, ?_⟩
  obtain ⟨hc1, _, hm1, hnd1, hb1⟩ := find_or_create_game_spec db uid hnodup hbound
  set r1 := find_or_create_game db uid with hr1
  cases he : eligibleGames r1.1 uid with
  | cons g0 tl =>
      obtain ⟨hg0mem, _, hg0no, _⟩ :=
        mem_eligibleGames r1.1 uid g0 (he ▸ List.mem_cons_self g0 tl)
      simp only [find_or_create_game, he]
      intro hid
      rw [addPlayerToGame_id] at hid
      have heq : g0 = r1.2 := List.inj_on_of_nodup_map hnd1 hg0mem hm1 hid
      rw [heq, hc1] at hg0no
      exact Bool.noConfusion hg0no
  | nil =>
      simp only [find_or_create_game, he]
      intro hid
      rw [addPlayerToGame_id] at hid
      have hid2 : r1.1.next_id = r1.2.id := hid
      have hlt := hb1 _ hm1
      omega

/-- C9 witness: a store holding one waiting game (id 1) already containing
user 7, with the next key 2: the second call returns a different game id, and
re-adding user 7 to their game is a no-op. -/
theorem C9_witness :
    ((Db.mk [GameRec.mk 1 "waiting" [⟨7, 1, 0⟩]] 2).games.map (fun g => g.id)).Nodup ∧
    (∀ g ∈ (Db.mk [GameRec.mk 1 "waiting" [⟨7, 1, 0⟩]] 2).games,
      g.id < (Db.mk [GameRec.mk 1 "waiting" [⟨7, 1, 0⟩]] 2).next_id) ∧
    ((find_or_create_game
        (find_or_create_game (Db.mk [GameRec.mk 1 "waiting" [⟨7, 1, 0⟩]] 2) 7).1 7).2).id
      ≠ ((find_or_create_game (Db.mk [GameRec.mk 1 "waiting" [⟨7, 1, 0⟩]] 2) 7).2).id := by
  refine ⟨by decide, by decide, ?_⟩
  exact (C9_second_call_differs (Db.mk [GameRec.mk 1 "waiting" [⟨7, 1, 0⟩]] 2) 7
    (by decide) (by decide)).2

end Heartless
